import Mathlib

/-!
Shallow embedding of the sales-order domain model of the repository
(TypeScript): Currency, Money, DateTime, ProductId, SalesOrderItem and the
SalesOrder aggregate with its lifecycle state machine.

Conventions of the embedding:
* TypeScript numbers are modelled as rationals (the claims only involve
  exact addition, multiplication and sign comparisons).
* A method that may throw is modelled as a function into
  Except DomainError; a throwing method of a mutable object is modelled as
  a function returning the result together with the post-state of the
  object, so that partial mutation before a throw would be observable.
* Each DomainError constructor corresponds to exactly one family of throw
  sites in the source; DomainError.message reproduces the thrown message
  string (numeric interpolations are rendered with Lean's toString).
* Object identity of JavaScript class instances is modelled by an extra
  ref field on Currency (construction site tag); no operation of the
  source reads it, which is exactly what the code-based equality claims
  are about.
* The ambient unique-ID source (crypto.randomUUID) is modelled by passing
  the freshly generated string as an explicit argument.
-/

/-- The four states of a sales order, from the SalesOrderState union type
in sales-order.ts. -/
inductive SalesOrderState where
  | pending
  | confirmed
  | shipped
  | cancelled
deriving DecidableEq, Repr

/-- The string each state interpolates to in thrown error messages. -/
def SalesOrderState.name : SalesOrderState → String
  | .pending => "PENDING"
  | .confirmed => "CONFIRMED"
  | .shipped => "SHIPPED"
  | .cancelled => "CANCELLED"

/-- Currency (currency.ts): wraps a three-letter code string. The ref
field models JavaScript object identity (each construction site gets its
own tag); the source never reads it — every operation goes through the
code getter, which returns the string. -/
structure Currency where
  code : String
  ref : Nat
deriving DecidableEq, Repr

/-- The error kinds of the domain, one constructor per family of throw
sites in the source. -/
inductive DomainError where
  | invalidAmount
  | currencyMismatch
  | invalidFactor (factor : ℚ)
  | invalidDate
  | futureDate (t : ℤ)
  | invalidQuantity
  | missingCustomerId
  | invalidOrderState (state : SalesOrderState)
  | invalidProductId
  | invalidUnitPrice
  | invalidStateTransition (op : String) (state : SalesOrderState)
deriving DecidableEq, Repr

/-- The message string thrown at each error site in the source. -/
def DomainError.message : DomainError → String
  | .invalidAmount => "Amount cannot be negative"
  | .currencyMismatch => "Cannot add amounts with different currencies"
  | .invalidFactor f => "Factor cannot be negative: " ++ toString f
  | .invalidDate => "Invalid date: Invalid Date"
  | .futureDate t => "Date cannot be in the future: " ++ toString t
  | .invalidQuantity => "Quantity must be greater than zero"
  | .missingCustomerId => "Customer ID is required"
  | .invalidOrderState s => "Cannot add items to a " ++ s.name ++ " order"
  | .invalidProductId => "Product ID is required"
  | .invalidUnitPrice => "Unit price must be greater than zero"
  | .invalidStateTransition op s =>
      "Cannot " ++ op ++ " an order in " ++ s.name ++ " state"

/-- Money (money.ts): immutable amount/currency pair. -/
structure Money where
  amount : ℚ
  currency : Currency
deriving DecidableEq, Repr

/-- The Money constructor: throws if the amount is negative. -/
def Money.mk? (amount : ℚ) (currency : Currency) : Except DomainError Money :=
  if amount < 0 then .error .invalidAmount
  else .ok ⟨amount, currency⟩

/-- Money.add: throws unless the two currency CODE strings are equal
(strict string equality on the code getters); otherwise constructs a new
Money with the summed amount and the receiver's currency. -/
def Money.add (m other : Money) : Except DomainError Money :=
  if m.currency.code = other.currency.code then
    Money.mk? (m.amount + other.amount) m.currency
  else .error .currencyMismatch

/-- Money.multiply: throws if the factor is negative; otherwise constructs
a new Money with amount times factor and the receiver's currency. -/
def Money.multiply (m : Money) (factor : ℚ) : Except DomainError Money :=
  if factor < 0 then .error (.invalidFactor factor)
  else Money.mk? (m.amount * factor) m.currency

/-- A concrete currency instance for witnesses. -/
def usd : Currency := ⟨"USD", 0⟩

/-- A second, distinct Currency instance carrying the same code string. -/
def usd' : Currency := ⟨"USD", 1⟩

/-- A concrete currency with a different code, for mismatch witnesses. -/
def eur : Currency := ⟨"EUR", 0⟩

/-- Claim C4: for all non-negative amounts a, b and currencies c1, c2,
Money(a,c1).add(Money(b,c2)) returns a new Money with amount a + b and
currency c1 when the codes are equal, and fails with CurrencyMismatch
when the codes differ. -/
theorem money_add_spec (a b : ℚ) (c1 c2 : Currency) (ha : 0 ≤ a) (hb : 0 ≤ b) :
    (c1.code = c2.code →
      Money.add ⟨a, c1⟩ ⟨b, c2⟩ = .ok ⟨a + b, c1⟩) ∧
    (c1.code ≠ c2.code →
      Money.add ⟨a, c1⟩ ⟨b, c2⟩ = .error .currencyMismatch) := by
  constructor
  · intro h
    simp only [Money.add, h, if_true, Money.mk?]
    rw [if_neg (by linarith)]
  · intro h
    simp only [Money.add, h, if_false, if_neg h]

/-- Witness for C4: both branches at concrete inputs. -/
theorem money_add_spec_witness :
    Money.add ⟨1, usd⟩ ⟨2, usd⟩ = .ok ⟨1 + 2, usd⟩ ∧
    Money.add ⟨1, usd⟩ ⟨2, eur⟩ = .error .currencyMismatch :=
  ⟨(money_add_spec 1 2 usd usd (by norm_num) (by norm_num)).1 rfl,
   (money_add_spec 1 2 usd eur (by norm_num) (by norm_num)).2 (by decide)⟩

/-- Claim C5: for every Money(a,c) (so a is non-negative) and every
factor f, multiply fails with InvalidFactor when f < 0, and for f ≥ 0
returns a new Money in currency c with amount a times f; f = 0 is
permitted and yields a zero amount. -/
theorem money_multiply_spec (a : ℚ) (c : Currency) (f : ℚ) (ha : 0 ≤ a) :
    (f < 0 → Money.multiply ⟨a, c⟩ f = .error (.invalidFactor f)) ∧
    (0 ≤ f → Money.multiply ⟨a, c⟩ f = .ok ⟨a * f, c⟩) ∧
    Money.multiply ⟨a, c⟩ 0 = .ok ⟨0, c⟩ := by
  refine ⟨fun h => ?_, fun h => ?_, ?_⟩
  · simp only [Money.multiply, h, if_true]
  · simp only [Money.multiply, Money.mk?]
    rw [if_neg (by linarith), if_neg (by nlinarith)]
  · simp only [Money.multiply, Money.mk?, mul_zero]
    norm_num

/-- Witness for C5: both branches at concrete inputs. -/
theorem money_multiply_spec_witness :
    Money.multiply ⟨5, usd⟩ (-1) = .error (.invalidFactor (-1)) ∧
    Money.multiply ⟨5, usd⟩ 2 = .ok ⟨5 * 2, usd⟩ :=
  ⟨(money_multiply_spec 5 usd (-1) (by norm_num)).1 (by norm_num),
   (money_multiply_spec 5 usd 2 (by norm_num)).2.1 (by norm_num)⟩

/-- Claim C6: every Money instance has a non-negative amount —
construction fails with InvalidAmount for a negative amount and succeeds
otherwise, and every Money produced by add or multiply from Money values
with non-negative amounts again has a non-negative amount. -/
theorem money_nonneg_invariant :
    (∀ (a : ℚ) (c : Currency), a < 0 → Money.mk? a c = .error .invalidAmount) ∧
    (∀ (a : ℚ) (c : Currency) (m : Money), Money.mk? a c = .ok m → 0 ≤ m.amount) ∧
    (∀ (m1 m2 r : Money), 0 ≤ m1.amount → 0 ≤ m2.amount →
      Money.add m1 m2 = .ok r → 0 ≤ r.amount) ∧
    (∀ (m : Money) (f : ℚ) (r : Money), 0 ≤ m.amount →
      Money.multiply m f = .ok r → 0 ≤ r.amount) := by
  have hmk : ∀ (a : ℚ) (c : Currency) (m : Money), Money.mk? a c = .ok m → 0 ≤ m.amount := by
    intro a c m h
    simp only [Money.mk?] at h
    split at h
    · exact absurd h (by simp)
    · rename_i hlt
      obtain rfl := (Except.ok.inj h).symm
      exact le_of_not_lt hlt
  refine ⟨fun a c h => ?_, hmk, fun m1 m2 r _ _ h => ?_, fun m f r _ h => ?_⟩
  · simp only [Money.mk?, h, if_true]
  · simp only [Money.add] at h
    split at h
    · exact hmk _ _ _ h
    · exact absurd h (by simp)
  · simp only [Money.multiply] at h
    split at h
    · exact absurd h (by simp)
    · exact hmk _ _ _ h

/-- Witness for C6: the hypotheses of each conjunct discharged at
concrete inputs. -/
theorem money_nonneg_invariant_witness :
    Money.mk? (-3) usd = .error .invalidAmount ∧
    (0 : ℚ) ≤ (Money.mk 7 usd).amount :=
  ⟨money_nonneg_invariant.1 (-3) usd (by norm_num),
   money_nonneg_invariant.2.1 7 usd ⟨7, usd⟩ (by norm_num [Money.mk?])⟩

/-- Claim C10: currency equality in Money.add is decided solely by the
code string — for Money values held by two DISTINCT Currency instances
whose codes are equal as strings, add succeeds and returns the summed
amount. -/
theorem money_add_by_code_only (a b : ℚ) (c1 c2 : Currency)
    (ha : 0 ≤ a) (hb : 0 ≤ b) (_hne : c1 ≠ c2) (hcode : c1.code = c2.code) :
    Money.add ⟨a, c1⟩ ⟨b, c2⟩ = .ok ⟨a + b, c1⟩ := by
  simp only [Money.add, hcode, if_true, Money.mk?]
  rw [if_neg (by linarith)]

/-- Witness for C10: two distinct USD Currency instances. -/
theorem money_add_by_code_only_witness :
    Money.add ⟨1, usd⟩ ⟨2, usd'⟩ = .ok ⟨1 + 2, usd⟩ :=
  money_add_by_code_only 1 2 usd usd' (by norm_num) (by norm_num)
    (by decide) rfl

/-- The argument the DateTime constructor may receive: a Date object
(carrying its time value in milliseconds, or none if it is an Invalid
Date) or a string. -/
inductive DateValue where
  | date (t : Option ℤ)
  | str (s : String)
deriving DecidableEq, Repr

/-- JavaScript truthiness of the optional constructor argument: absent
and the empty string are falsy; every Date object and every non-empty
string is truthy. -/
def jsTruthy : Option DateValue → Bool
  | none => false
  | some (.date _) => true
  | some (.str s) => s ≠ ""

/-- What new Date(value).getTime() yields: the Date's own time value, or
the result of the ambient string parser (none models NaN / Invalid
Date). The string parser is the JavaScript runtime's Date.parse, passed
in as a parameter. -/
def parseDateValue (strParse : String → Option ℤ) : DateValue → Option ℤ
  | .date t => t
  | .str s => strParse s

/-- DateTime (date-time.ts): immutable wrapper of a time value
(milliseconds since the epoch). -/
structure DateTime where
  value : ℤ
deriving DecidableEq, Repr

/-- The DateTime constructor. now is the clock reading taken at
construction time; strParse is the ambient string-to-date parser. The
source tests the argument with a truthiness check, re-parses it through
new Date, throws on NaN, throws if strictly later than now, and falls
back to now when the argument is falsy. -/
def DateTime.create (strParse : String → Option ℤ) (now : ℤ)
    (value : Option DateValue) : Except DomainError DateTime :=
  if jsTruthy value then
    match value with
    | none => .ok ⟨now⟩
    | some v =>
      match parseDateValue strParse v with
      | none => .error .invalidDate
      | some t => if now < t then .error (.futureDate t) else .ok ⟨t⟩
  else .ok ⟨now⟩

/-- Counterexample to claim C7 as stated: the empty string is a supplied
value that is unparseable (new Date of an empty string is an Invalid
Date, so the parser returns none on it), yet construction does not fail
with InvalidDate — the truthiness check treats the empty string as
absent and the constructor captures the current time. -/
theorem datetime_empty_string_counterexample :
    DateTime.create (fun _ => none) 0 (some (DateValue.str "")) = .ok ⟨0⟩ ∧
    parseDateValue (fun _ => none) (DateValue.str "") = none ∧
    DateTime.create (fun _ => none) 0 (some (DateValue.str "")) ≠
      .error DomainError.invalidDate :=
  ⟨rfl, rfl, fun h => Except.noConfusion h⟩

/-- Claim C7 amended: for every supplied TRUTHY value (a Date object or
a non-empty string), construction fails with InvalidDate when the value
is unparseable and with FutureDate when it parses strictly later than
the construction-time now, and otherwise captures the parsed time; with
no argument — or with the falsy empty string — it never fails and
captures the current time. -/
theorem datetime_create_spec (strParse : String → Option ℤ) (now : ℤ)
    (v : DateValue) :
    (jsTruthy (some v) = true → parseDateValue strParse v = none →
      DateTime.create strParse now (some v) = .error .invalidDate) ∧
    (∀ t : ℤ, jsTruthy (some v) = true → parseDateValue strParse v = some t →
      now < t → DateTime.create strParse now (some v) = .error (.futureDate t)) ∧
    (∀ t : ℤ, jsTruthy (some v) = true → parseDateValue strParse v = some t →
      t ≤ now → DateTime.create strParse now (some v) = .ok ⟨t⟩) ∧
    DateTime.create strParse now none = .ok ⟨now⟩ ∧
    (jsTruthy (some v) = false → DateTime.create strParse now (some v) = .ok ⟨now⟩) := by
  refine ⟨fun ht hp => ?_, fun t ht hp hf => ?_, fun t ht hp hle => ?_, rfl, fun ht => ?_⟩
  · simp only [DateTime.create, ht, if_true, hp]
  · simp only [DateTime.create, ht, if_true, hp]
    rw [if_pos hf]
  · simp only [DateTime.create, ht, if_true, hp]
    rw [if_neg (not_lt.mpr hle)]
  · simp only [DateTime.create, ht]
    exact rfl

/-- Witness for C7 (amended): a parser that knows one date string;
an unparseable string fails, a future date fails, a past date and the
absent argument succeed. -/
theorem datetime_create_spec_witness :
    DateTime.create (fun s => if s = "2020" then some 100 else none) 50
        (some (DateValue.str "garbage")) = .error .invalidDate ∧
    DateTime.create (fun s => if s = "2020" then some 100 else none) 50
        (some (DateValue.str "2020")) = .error (.futureDate 100) ∧
    DateTime.create (fun s => if s = "2020" then some 100 else none) 200
        (some (DateValue.str "2020")) = .ok ⟨100⟩ ∧
    DateTime.create (fun s => if s = "2020" then some 100 else none) 50 none = .ok ⟨50⟩ :=
  ⟨(datetime_create_spec _ 50 (DateValue.str "garbage")).1 (by decide) (by decide),
   (datetime_create_spec _ 50 (DateValue.str "2020")).2.1 100 (by decide) (by decide)
     (by norm_num),
   (datetime_create_spec _ 200 (DateValue.str "2020")).2.2.1 100 (by decide) (by decide)
     (by norm_num),
   (datetime_create_spec (fun s => if s = "2020" then some 100 else none) 50
     (DateValue.str "x")).2.2.2.1⟩

/-- ProductId (product-id.ts): wraps an identifier string. -/
structure ProductId where
  id : String
deriving DecidableEq, Repr

/-- SalesOrderItem (sales-order-item.ts): immutable line item. -/
structure SalesOrderItem where
  orderId : String
  itemId : String
  productId : ProductId
  quantity : ℚ
  unitPrice : Money
deriving DecidableEq, Repr

/-- The SalesOrderItem constructor: throws if the quantity is not
greater than zero (quantity is a JavaScript number — the source performs
no integrality check). The itemId argument models the value produced by
the ambient unique-ID source. -/
def SalesOrderItem.mk? (orderId itemId : String) (productId : ProductId)
    (quantity : ℚ) (unitPrice : Money) : Except DomainError SalesOrderItem :=
  if quantity ≤ 0 then .error .invalidQuantity
  else .ok ⟨orderId, itemId, productId, quantity, unitPrice⟩

/-- SalesOrderItem.calculateItemTotal: a new Money built from
unitPrice.multiply(quantity).amount in the unit price's currency. -/
def SalesOrderItem.calculateItemTotal (it : SalesOrderItem) :
    Except DomainError Money :=
  (it.unitPrice.multiply it.quantity).bind fun m =>
    Money.mk? m.amount it.unitPrice.currency

/-- Counterexample to claim C8 as stated: the constructor checks only
that the quantity is greater than zero — a non-integral quantity of 5/2
is accepted, so a constructed item CAN hold a non-integral quantity. -/
theorem item_nonintegral_quantity_counterexample :
    SalesOrderItem.mk? "o1" "i1" ⟨"p1"⟩ (5 / 2) ⟨10, usd⟩ =
      .ok ⟨"o1", "i1", ⟨"p1"⟩, 5 / 2, ⟨10, usd⟩⟩ ∧
    ¬ ∃ n : ℤ, (5 / 2 : ℚ) = (n : ℚ) := by
  constructor
  · simp only [SalesOrderItem.mk?]
    rw [if_neg (by norm_num)]
  · rintro ⟨n, hn⟩
    have h1 : (2 : ℚ) * n = 5 := by rw [← hn]; ring
    have h2 : (2 * n : ℤ) = 5 := by exact_mod_cast h1
    omega

/-- Claim C8 amended: every constructed SalesOrderItem has a positive
quantity — construction fails with InvalidQuantity for any quantity ≤ 0
and succeeds for any quantity > 0 (integral or not), and every
successfully constructed item holds a positive quantity. -/
theorem item_quantity_positive (orderId itemId : String) (p : ProductId)
    (q : ℚ) (price : Money) :
    (q ≤ 0 → SalesOrderItem.mk? orderId itemId p q price = .error .invalidQuantity) ∧
    (0 < q → SalesOrderItem.mk? orderId itemId p q price =
      .ok ⟨orderId, itemId, p, q, price⟩) ∧
    (∀ it, SalesOrderItem.mk? orderId itemId p q price = .ok it → 0 < it.quantity) := by
  refine ⟨fun h => ?_, fun h => ?_, fun it h => ?_⟩
  · simp only [SalesOrderItem.mk?, h, if_true]
  · simp only [SalesOrderItem.mk?]
    rw [if_neg (not_le.mpr h)]
  · simp only [SalesOrderItem.mk?] at h
    split at h
    · exact absurd h (by simp)
    · rename_i hle
      obtain rfl := (Except.ok.inj h).symm
      exact lt_of_not_le hle

/-- Witness for C8 (amended): both constructor branches at concrete
inputs. -/
theorem item_quantity_positive_witness :
    SalesOrderItem.mk? "o1" "i1" ⟨"p1"⟩ 0 ⟨10, usd⟩ = .error .invalidQuantity ∧
    SalesOrderItem.mk? "o1" "i1" ⟨"p1"⟩ 3 ⟨10, usd⟩ =
      .ok ⟨"o1", "i1", ⟨"p1"⟩, 3, ⟨10, usd⟩⟩ :=
  ⟨(item_quantity_positive "o1" "i1" ⟨"p1"⟩ 0 ⟨10, usd⟩).1 le_rfl,
   (item_quantity_positive "o1" "i1" ⟨"p1"⟩ 3 ⟨10, usd⟩).2.1 (by norm_num)⟩

/-- JavaScript String.prototype.trim: drops leading and trailing
whitespace (modelled on the character list so that it is structurally
recursive and evaluable). -/
def jsTrim (s : String) : String :=
  ⟨((s.data.dropWhile Char.isWhitespace).reverse.dropWhile
      Char.isWhitespace).reverse⟩

/-- SalesOrder (sales-order.ts): the aggregate root. -/
structure SalesOrder where
  customerId : String
  id : String
  items : List SalesOrderItem
  orderedAt : DateTime
  currency : Currency
  state : SalesOrderState
deriving DecidableEq, Repr

/-- The SalesOrder constructor: requires a customer id that is non-empty
after trimming, generates the order id (modelled by the uuid argument),
starts with no items in the PENDING state. The orderedAt DateTime is the
already-constructed value of new DateTime(orderedAt). -/
def SalesOrder.create (uuid customerId : String) (currency : Currency)
    (orderedAt : DateTime) : Except DomainError SalesOrder :=
  if (jsTrim customerId).length = 0 then .error .missingCustomerId
  else .ok ⟨customerId, uuid, [], orderedAt, currency, .pending⟩

/-- SalesOrder.canAddItems: items may be added unless the order is
CANCELLED or SHIPPED. -/
def SalesOrder.canAddItems (o : SalesOrder) : Bool :=
  o.state ≠ .cancelled && o.state ≠ .shipped

/-- SalesOrder.addItem. The source throws (in this order) when the state
forbids additions, the product id is absent or blank, the quantity is
not positive, or the unit price is not positive; otherwise it constructs
Money(unitPriceAmount, this currency) and a SalesOrderItem bound to this
order's id and pushes it onto the item array. The itemUuid argument
models the item id drawn from the ambient unique-ID source; the result
pairs the outcome with the post-state of the order. -/
def SalesOrder.addItem (o : SalesOrder) (itemUuid : String)
    (productId : Option ProductId) (quantity unitPriceAmount : ℚ) :
    Except DomainError Unit × SalesOrder :=
  if o.canAddItems then
    match productId with
    | none => (.error .invalidProductId, o)
    | some p =>
      if (jsTrim p.id).length = 0 then (.error .invalidProductId, o)
      else if quantity ≤ 0 then (.error .invalidQuantity, o)
      else if unitPriceAmount ≤ 0 then (.error .invalidUnitPrice, o)
      else
        match Money.mk? unitPriceAmount o.currency with
        | .error e => (.error e, o)
        | .ok unitPrice =>
          match SalesOrderItem.mk? o.id itemUuid p quantity unitPrice with
          | .error e => (.error e, o)
          | .ok item => (.ok (), { o with items := o.items ++ [item] })
  else (.error (.invalidOrderState o.state), o)

/-- The reducer callback of calculateTotalAmount:
(total, item) => total.add(item.calculateItemTotal()). -/
def SalesOrder.addTotalStep (total : Money) (it : SalesOrderItem) :
    Except DomainError Money :=
  (it.calculateItemTotal).bind fun t => total.add t

/-- SalesOrder.calculateTotalAmount: folds the items with the add
reducer starting from new Money(0, this currency). -/
def SalesOrder.calculateTotalAmount (o : SalesOrder) :
    Except DomainError Money :=
  (Money.mk? 0 o.currency).bind fun zero =>
    o.items.foldlM SalesOrder.addTotalStep zero

/-- SalesOrder.confirm: PENDING becomes CONFIRMED, anything else throws
naming the current state. -/
def SalesOrder.confirm (o : SalesOrder) : Except DomainError Unit × SalesOrder :=
  if o.state = .pending then (.ok (), { o with state := .confirmed })
  else (.error (.invalidStateTransition "confirm" o.state), o)

/-- SalesOrder.ship: CONFIRMED becomes SHIPPED, anything else throws
naming the current state. -/
def SalesOrder.ship (o : SalesOrder) : Except DomainError Unit × SalesOrder :=
  if o.state = .confirmed then (.ok (), { o with state := .shipped })
  else (.error (.invalidStateTransition "ship" o.state), o)

/-- SalesOrder.cancel: PENDING or CONFIRMED becomes CANCELLED, anything
else throws naming the current state. -/
def SalesOrder.cancel (o : SalesOrder) : Except DomainError Unit × SalesOrder :=
  if o.state = .pending ∨ o.state = .confirmed then
    (.ok (), { o with state := .cancelled })
  else (.error (.invalidStateTransition "cancel" o.state), o)

/-- The sum of unitPrice amount times quantity over a list of items. -/
def itemsTotal (items : List SalesOrderItem) : ℚ :=
  (items.map fun it => it.unitPrice.amount * it.quantity).sum

/-- Unfolding itemsTotal over a cons cell. -/
theorem itemsTotal_cons (it : SalesOrderItem) (rest : List SalesOrderItem) :
    itemsTotal (it :: rest) = it.unitPrice.amount * it.quantity + itemsTotal rest := by
  simp [itemsTotal]

/-- One addItem call with its ambient fresh item id. -/
structure AddCall where
  itemUuid : String
  productId : Option ProductId
  quantity : ℚ
  unitPriceAmount : ℚ

/-- The post-state of the order after one addItem call (failed calls
leave the order unchanged). -/
def SalesOrder.applyAdd (o : SalesOrder) (c : AddCall) : SalesOrder :=
  (o.addItem c.itemUuid c.productId c.quantity c.unitPriceAmount).2

/-- The post-state of the order after a sequence of addItem calls. -/
def SalesOrder.runAdds (o : SalesOrder) (cs : List AddCall) : SalesOrder :=
  cs.foldl SalesOrder.applyAdd o

/-- The item invariant maintained by the aggregate: every item has a
non-negative unit price amount, a positive quantity, and a unit price
whose currency code is the order's currency code. -/
def SalesOrder.WellFormedItems (o : SalesOrder) : Prop :=
  ∀ it ∈ o.items, 0 ≤ it.unitPrice.amount ∧ 0 < it.quantity ∧
    it.unitPrice.currency.code = o.currency.code

/-- Case characterization of addItem: the inner Money and SalesOrderItem
constructions always succeed under the guards, so addItem reduces to the
guard cascade with an append on success. -/
theorem SalesOrder.addItem_eq (o : SalesOrder) (u : String)
    (pid : Option ProductId) (q a : ℚ) :
    o.addItem u pid q a =
      if o.state = .shipped ∨ o.state = .cancelled then
        (.error (.invalidOrderState o.state), o)
      else
        match pid with
        | none => (.error .invalidProductId, o)
        | some p =>
          if (jsTrim p.id).length = 0 then (.error .invalidProductId, o)
          else if q ≤ 0 then (.error .invalidQuantity, o)
          else if a ≤ 0 then (.error .invalidUnitPrice, o)
          else (.ok (),
            { o with items := o.items ++ [⟨o.id, u, p, q, ⟨a, o.currency⟩⟩] }) := by
  have hcan : o.canAddItems = !(decide (o.state = .shipped ∨ o.state = .cancelled)) := by
    unfold SalesOrder.canAddItems
    cases o.state <;> rfl
  by_cases hs : o.state = .shipped ∨ o.state = .cancelled
  · rw [if_pos hs]
    unfold SalesOrder.addItem
    rw [hcan]
    simp [hs]
  · rw [if_neg hs]
    unfold SalesOrder.addItem
    rw [hcan]
    simp only [hs, decide_False, Bool.not_false, if_true]
    cases pid with
    | none => rfl
    | some p =>
      dsimp only
      by_cases hp : (jsTrim p.id).length = 0
      · simp only [hp, if_true]
      · rw [if_neg hp, if_neg hp]
        by_cases hq : q ≤ 0
        · simp only [hq, if_true]
        · rw [if_neg hq, if_neg hq]
          by_cases ha : a ≤ 0
          · simp only [ha, if_true]
          · rw [if_neg ha, if_neg ha]
            have hmk : Money.mk? a o.currency = .ok ⟨a, o.currency⟩ := by
              unfold Money.mk?
              rw [if_neg (by push_neg at ha; linarith)]
            have hitem : SalesOrderItem.mk? o.id u p q ⟨a, o.currency⟩ =
                .ok ⟨o.id, u, p, q, ⟨a, o.currency⟩⟩ := by
              unfold SalesOrderItem.mk?
              rw [if_neg hq]
            rw [hmk]
            dsimp only
            rw [hitem]

/-- On a failed addItem the order is unchanged: every throw in the
source happens before the push. -/
theorem SalesOrder.addItem_fail_frame (o : SalesOrder) (u : String)
    (pid : Option ProductId) (q a : ℚ) (e : DomainError)
    (he : (o.addItem u pid q a).1 = .error e) :
    (o.addItem u pid q a).2 = o := by
  rw [SalesOrder.addItem_eq] at he ⊢
  by_cases hs : o.state = .shipped ∨ o.state = .cancelled
  · rw [if_pos hs]
  · rw [if_neg hs] at he ⊢
    cases pid with
    | none => rfl
    | some p =>
      dsimp only at he ⊢
      by_cases hp : (jsTrim p.id).length = 0
      · rw [if_pos hp]
      · rw [if_neg hp] at he ⊢
        by_cases hq : q ≤ 0
        · rw [if_pos hq]
        · rw [if_neg hq] at he ⊢
          by_cases ha : a ≤ 0
          · rw [if_pos ha]
          · rw [if_neg ha] at he
            exact absurd he (by simp)

/-- One reducer step succeeds on a well-formed item and adds the item
subtotal to the accumulator, keeping the accumulator's currency. -/
theorem addTotalStep_ok (c : Currency) (acc : ℚ) (hacc : 0 ≤ acc)
    (it : SalesOrderItem) (hA : 0 ≤ it.unitPrice.amount)
    (hQ : 0 < it.quantity) (hC : it.unitPrice.currency.code = c.code) :
    SalesOrder.addTotalStep ⟨acc, c⟩ it =
      .ok ⟨acc + it.unitPrice.amount * it.quantity, c⟩ := by
  have hmul : it.unitPrice.multiply it.quantity =
      .ok ⟨it.unitPrice.amount * it.quantity, it.unitPrice.currency⟩ := by
    unfold Money.multiply Money.mk?
    rw [if_neg (not_lt.mpr hQ.le), if_neg (not_lt.mpr (mul_nonneg hA hQ.le))]
  have hmk : Money.mk? (it.unitPrice.amount * it.quantity) it.unitPrice.currency =
      .ok ⟨it.unitPrice.amount * it.quantity, it.unitPrice.currency⟩ := by
    unfold Money.mk?
    rw [if_neg (not_lt.mpr (mul_nonneg hA hQ.le))]
  unfold SalesOrder.addTotalStep SalesOrderItem.calculateItemTotal
  rw [hmul]
  show ((Money.mk? (it.unitPrice.amount * it.quantity)
    it.unitPrice.currency).bind fun t => Money.add ⟨acc, c⟩ t) = _
  rw [hmk]
  show Money.add ⟨acc, c⟩ ⟨it.unitPrice.amount * it.quantity,
    it.unitPrice.currency⟩ = _
  unfold Money.add
  dsimp only
  rw [if_pos hC.symm]
  unfold Money.mk?
  rw [if_neg (not_lt.mpr (by positivity))]

/-- The reducer fold over well-formed items never fails and computes the
accumulator plus the sum of the item subtotals, in the accumulator's
currency. -/
theorem foldlM_addTotalStep (c : Currency) (items : List SalesOrderItem) :
    ∀ acc : ℚ, 0 ≤ acc →
    (∀ it ∈ items, 0 ≤ it.unitPrice.amount ∧ 0 < it.quantity ∧
      it.unitPrice.currency.code = c.code) →
    List.foldlM SalesOrder.addTotalStep (⟨acc, c⟩ : Money) items =
      .ok ⟨acc + itemsTotal items, c⟩ := by
  induction items with
  | nil =>
    intro acc _ _
    simp only [List.foldlM, itemsTotal, List.map_nil, List.sum_nil, add_zero]
    rfl
  | cons it rest ih =>
    intro acc hacc hinv
    obtain ⟨hA, hQ, hC⟩ := hinv it (List.mem_cons_self it rest)
    have hstep := addTotalStep_ok c acc hacc it hA hQ hC
    have hrest := ih (acc + it.unitPrice.amount * it.quantity)
      (by positivity) (fun x hx => hinv x (List.mem_cons_of_mem _ hx))
    rw [List.foldlM_cons, hstep]
    show List.foldlM SalesOrder.addTotalStep
      (⟨acc + it.unitPrice.amount * it.quantity, c⟩ : Money) rest = _
    rw [hrest, itemsTotal_cons, ← add_assoc]

/-- calculateTotalAmount on an order whose items are well formed:
returns ok with the sum of the subtotals in the order's currency. -/
theorem calcTotal_of_wf (o : SalesOrder) (h : o.WellFormedItems) :
    o.calculateTotalAmount = .ok ⟨itemsTotal o.items, o.currency⟩ := by
  unfold SalesOrder.calculateTotalAmount
  have h0 : Money.mk? 0 o.currency = .ok ⟨0, o.currency⟩ := by
    unfold Money.mk?
    norm_num
  rw [h0]
  show List.foldlM SalesOrder.addTotalStep (⟨0, o.currency⟩ : Money) o.items = _
  rw [foldlM_addTotalStep o.currency o.items 0 le_rfl h, zero_add]

/-- One addItem call preserves the item invariant and the order's
currency (and id), whether it succeeds or fails. -/
theorem applyAdd_preserves (o : SalesOrder) (call : AddCall)
    (h : o.WellFormedItems) :
    (o.applyAdd call).WellFormedItems ∧
      (o.applyAdd call).currency = o.currency := by
  obtain ⟨u, pid, q, a⟩ := call
  unfold SalesOrder.applyAdd
  dsimp only
  rw [SalesOrder.addItem_eq]
  by_cases hs : o.state = .shipped ∨ o.state = .cancelled
  · rw [if_pos hs]
    exact ⟨h, rfl⟩
  · rw [if_neg hs]
    cases pid with
    | none => exact ⟨h, rfl⟩
    | some p =>
      dsimp only
      by_cases hp : (jsTrim p.id).length = 0
      · rw [if_pos hp]
        exact ⟨h, rfl⟩
      · rw [if_neg hp]
        by_cases hq : q ≤ 0
        · rw [if_pos hq]
          exact ⟨h, rfl⟩
        · rw [if_neg hq]
          by_cases ha : a ≤ 0
          · rw [if_pos ha]
            exact ⟨h, rfl⟩
          · rw [if_neg ha]
            refine ⟨?_, rfl⟩
            intro it hit
            rcases List.mem_append.mp hit with hold | hnew
            · exact h it hold
            · rcases List.mem_singleton.mp hnew with rfl
              exact ⟨le_of_not_le ha, lt_of_not_le hq, rfl⟩

/-- A whole sequence of addItem calls preserves the item invariant and
the order's currency. -/
theorem runAdds_preserves (o : SalesOrder) (h : o.WellFormedItems)
    (cs : List AddCall) :
    (o.runAdds cs).WellFormedItems ∧ (o.runAdds cs).currency = o.currency := by
  induction cs generalizing o with
  | nil => exact ⟨h, rfl⟩
  | cons c rest ih =>
    obtain ⟨h1, h2⟩ := applyAdd_preserves o c h
    obtain ⟨h3, h4⟩ := ih (o.applyAdd c) h1
    exact ⟨h3, by rw [SalesOrder.runAdds, List.foldl_cons, ← SalesOrder.runAdds, h4, h2]⟩

/-- A concrete pending order for witnesses. -/
def orderPending : SalesOrder := ⟨"c1", "ord1", [], ⟨0⟩, usd, .pending⟩

/-- A concrete confirmed order for witnesses. -/
def orderConfirmed : SalesOrder := ⟨"c1", "ord1", [], ⟨0⟩, usd, .confirmed⟩

/-- A concrete shipped order for witnesses. -/
def orderShipped : SalesOrder := ⟨"c1", "ord1", [], ⟨0⟩, usd, .shipped⟩

/-- Claim C2: starting from any constructed SalesOrder and any sequence
of addItem calls (successful ones take effect, failed ones change
nothing), calculateTotalAmount returns ok — in particular the fold never
raises a currency mismatch — with a Money in the order's currency whose
amount is the sum of unitPrice amount times quantity over the items, and
with a zero amount when the order has no items. -/
theorem order_total_correct (uuid cid : String) (c : Currency)
    (dt : DateTime) (o0 : SalesOrder)
    (hc : SalesOrder.create uuid cid c dt = .ok o0) (calls : List AddCall) :
    (o0.runAdds calls).calculateTotalAmount =
      .ok ⟨itemsTotal (o0.runAdds calls).items, c⟩ ∧
    (o0.runAdds calls).currency = c ∧
    ((o0.runAdds calls).items = [] →
      (o0.runAdds calls).calculateTotalAmount = .ok ⟨0, c⟩) := by
  have ho0 : o0 = ⟨cid, uuid, [], dt, c, .pending⟩ := by
    unfold SalesOrder.create at hc
    split at hc
    · exact absurd hc (by simp)
    · exact (Except.ok.inj hc).symm
  have hwf : o0.WellFormedItems := by
    intro it hit
    rw [ho0] at hit
    exact absurd hit (List.not_mem_nil it)
  obtain ⟨hwf', hcur⟩ := runAdds_preserves o0 hwf calls
  have hcur' : (o0.runAdds calls).currency = c := by
    rw [hcur, ho0]
  have htot := calcTotal_of_wf (o0.runAdds calls) hwf'
  rw [hcur'] at htot
  refine ⟨htot, hcur', fun hnil => ?_⟩
  rw [htot, hnil]
  simp [itemsTotal]

/-- Witness for C2: a freshly created USD order, one successful addItem
call (quantity 2 at unit price 10), total 20 USD. -/
theorem order_total_correct_witness :
    (orderPending.runAdds [⟨"i1", some ⟨"p1"⟩, 2, 10⟩]).calculateTotalAmount =
      .ok ⟨itemsTotal (orderPending.runAdds [⟨"i1", some ⟨"p1"⟩, 2, 10⟩]).items, usd⟩ ∧
    itemsTotal (orderPending.runAdds [⟨"i1", some ⟨"p1"⟩, 2, 10⟩]).items = 20 := by
  constructor
  · exact (order_total_correct "ord1" "c1" usd ⟨0⟩ orderPending rfl
      [⟨"i1", some ⟨"p1"⟩, 2, 10⟩]).1
  · have hitems : (orderPending.runAdds [⟨"i1", some ⟨"p1"⟩, 2, 10⟩]).items =
        [⟨"ord1", "i1", ⟨"p1"⟩, 2, ⟨10, usd⟩⟩] := rfl
    rw [hitems]
    norm_num [itemsTotal]

/-- Claim C3: addItem fails with InvalidOrderState exactly when the
state is SHIPPED or CANCELLED; inside the guard it fails with
InvalidProductId when the product id is absent or blank after trimming,
then with InvalidQuantity when the quantity is not positive, then with
InvalidUnitPrice when the unit price is not positive; on success it
appends exactly one new item — carrying the order's id and
Money(unitPriceAmount, order currency) — to the end of the item
sequence, preserving all existing items and never merging. -/
theorem addItem_spec (o : SalesOrder) (u : String) (pid : Option ProductId)
    (q a : ℚ) :
    ((o.state = .shipped ∨ o.state = .cancelled) →
      o.addItem u pid q a = (.error (.invalidOrderState o.state), o)) ∧
    ((o.state = .pending ∨ o.state = .confirmed) → pid = none →
      o.addItem u pid q a = (.error .invalidProductId, o)) ∧
    (∀ p, (o.state = .pending ∨ o.state = .confirmed) → pid = some p →
      (jsTrim p.id).length = 0 →
      o.addItem u pid q a = (.error .invalidProductId, o)) ∧
    (∀ p, (o.state = .pending ∨ o.state = .confirmed) → pid = some p →
      (jsTrim p.id).length ≠ 0 → q ≤ 0 →
      o.addItem u pid q a = (.error .invalidQuantity, o)) ∧
    (∀ p, (o.state = .pending ∨ o.state = .confirmed) → pid = some p →
      (jsTrim p.id).length ≠ 0 → 0 < q → a ≤ 0 →
      o.addItem u pid q a = (.error .invalidUnitPrice, o)) ∧
    (∀ p, (o.state = .pending ∨ o.state = .confirmed) → pid = some p →
      (jsTrim p.id).length ≠ 0 → 0 < q → 0 < a →
      o.addItem u pid q a = (.ok (),
        { o with items := o.items ++ [⟨o.id, u, p, q, ⟨a, o.currency⟩⟩] })) := by
  have hns : (o.state = .pending ∨ o.state = .confirmed) →
      ¬(o.state = .shipped ∨ o.state = .cancelled) := by
    rintro (h | h) <;> simp [h]
  rw [SalesOrder.addItem_eq]
  refine ⟨fun hs => ?_, fun hst hnone => ?_, fun p hst hsome hp => ?_,
    fun p hst hsome hp hq => ?_, fun p hst hsome hp hq ha => ?_,
    fun p hst hsome hp hq ha => ?_⟩
  · rw [if_pos hs]
  · rw [if_neg (hns hst), hnone]
  · rw [if_neg (hns hst), hsome]
    dsimp only
    rw [if_pos hp]
  · rw [if_neg (hns hst), hsome]
    dsimp only
    rw [if_neg hp, if_pos hq]
  · rw [if_neg (hns hst), hsome]
    dsimp only
    rw [if_neg hp, if_neg (not_le.mpr hq), if_pos ha]
  · rw [if_neg (hns hst), hsome]
    dsimp only
    rw [if_neg hp, if_neg (not_le.mpr hq), if_neg (not_le.mpr ha)]

/-- Witness for C3: the guard failure on a shipped order and a
successful append on a pending order, at concrete inputs. -/
theorem addItem_spec_witness :
    orderShipped.addItem "i1" (some ⟨"p1"⟩) 2 10 =
      (.error (.invalidOrderState .shipped), orderShipped) ∧
    orderPending.addItem "i1" (some ⟨"p1"⟩) 2 10 = (.ok (),
      { orderPending with
        items := orderPending.items ++ [⟨orderPending.id, "i1", ⟨"p1"⟩, 2, ⟨10, usd⟩⟩] }) :=
  ⟨(addItem_spec orderShipped "i1" (some ⟨"p1"⟩) 2 10).1 (Or.inl rfl),
   (addItem_spec orderPending "i1" (some ⟨"p1"⟩) 2 10).2.2.2.2.2 ⟨"p1"⟩
     (Or.inl rfl) rfl (by decide) (by norm_num) (by norm_num)⟩

/-- The message of every InvalidStateTransition error names the state
the order was in. -/
theorem invalidStateTransition_message_names_state (op : String)
    (s : SalesOrderState) :
    ∃ pre post, (DomainError.invalidStateTransition op s).message =
      pre ++ s.name ++ post :=
  ⟨"Cannot " ++ op ++ " an order in ", " state", by
    simp [DomainError.message, String.append_assoc]⟩

/-- Claim C1: the SalesOrder lifecycle is exactly the finite-state
machine — confirm moves PENDING to CONFIRMED, ship moves CONFIRMED to
SHIPPED, cancel moves PENDING or CONFIRMED to CANCELLED; in every other
state the attempted operation fails with InvalidStateTransition whose
message names the current state, and no operation changes an order that
is SHIPPED or CANCELLED. -/
theorem salesorder_lifecycle (o : SalesOrder) :
    (o.state = .pending → o.confirm = (.ok (), { o with state := .confirmed })) ∧
    (o.state ≠ .pending →
      o.confirm = (.error (.invalidStateTransition "confirm" o.state), o) ∧
      ∃ pre post, (DomainError.invalidStateTransition "confirm" o.state).message =
        pre ++ o.state.name ++ post) ∧
    (o.state = .confirmed → o.ship = (.ok (), { o with state := .shipped })) ∧
    (o.state ≠ .confirmed →
      o.ship = (.error (.invalidStateTransition "ship" o.state), o) ∧
      ∃ pre post, (DomainError.invalidStateTransition "ship" o.state).message =
        pre ++ o.state.name ++ post) ∧
    ((o.state = .pending ∨ o.state = .confirmed) →
      o.cancel = (.ok (), { o with state := .cancelled })) ∧
    ((o.state = .shipped ∨ o.state = .cancelled) →
      o.cancel = (.error (.invalidStateTransition "cancel" o.state), o) ∧
      ∃ pre post, (DomainError.invalidStateTransition "cancel" o.state).message =
        pre ++ o.state.name ++ post) ∧
    ((o.state = .shipped ∨ o.state = .cancelled) →
      (o.confirm).2 = o ∧ (o.ship).2 = o ∧ (o.cancel).2 = o ∧
      ∀ u pid q a, (o.addItem u pid q a).2 = o) := by
  refine ⟨fun h => ?_, fun h => ⟨?_, invalidStateTransition_message_names_state _ _⟩,
    fun h => ?_, fun h => ⟨?_, invalidStateTransition_message_names_state _ _⟩,
    fun h => ?_, fun h => ⟨?_, invalidStateTransition_message_names_state _ _⟩,
    fun hs => ?_⟩
  · unfold SalesOrder.confirm
    rw [if_pos h]
  · unfold SalesOrder.confirm
    rw [if_neg h]
  · unfold SalesOrder.ship
    rw [if_pos h]
  · unfold SalesOrder.ship
    rw [if_neg h]
  · unfold SalesOrder.cancel
    rw [if_pos h]
  · unfold SalesOrder.cancel
    rw [if_neg (by rcases h with h | h <;> simp [h])]
  · have h1 : o.state ≠ .pending := by rcases hs with h | h <;> simp [h]
    have h2 : o.state ≠ .confirmed := by rcases hs with h | h <;> simp [h]
    refine ⟨?_, ?_, ?_, fun u pid q a => ?_⟩
    · unfold SalesOrder.confirm
      rw [if_neg h1]
    · unfold SalesOrder.ship
      rw [if_neg h2]
    · unfold SalesOrder.cancel
      rw [if_neg (by rcases hs with h | h <;> simp [h])]
    · rw [SalesOrder.addItem_eq, if_pos hs]

/-- Witness for C1: confirm succeeds on a concrete pending order, fails
on a shipped order naming SHIPPED, and cancel leaves a shipped order
unchanged. -/
theorem salesorder_lifecycle_witness :
    orderPending.confirm = (.ok (), { orderPending with state := .confirmed }) ∧
    orderShipped.confirm =
      (.error (.invalidStateTransition "confirm" orderShipped.state), orderShipped) ∧
    (orderShipped.cancel).2 = orderShipped :=
  ⟨(salesorder_lifecycle orderPending).1 rfl,
   ((salesorder_lifecycle orderShipped).2.1 (by decide)).1,
   ((salesorder_lifecycle orderShipped).2.2.2.2.2.2 (Or.inl rfl)).2.2.1⟩

/-- Claim C9: every operation is atomic on failure — whenever addItem,
confirm, ship or cancel fails, the order (state, item sequence and all
other attributes) is exactly as before the call. -/
theorem ops_atomic_on_failure (o : SalesOrder) :
    (∀ e, (o.confirm).1 = .error e → (o.confirm).2 = o) ∧
    (∀ e, (o.ship).1 = .error e → (o.ship).2 = o) ∧
    (∀ e, (o.cancel).1 = .error e → (o.cancel).2 = o) ∧
    (∀ u pid q a e, (o.addItem u pid q a).1 = .error e →
      (o.addItem u pid q a).2 = o) := by
  refine ⟨fun e he => ?_, fun e he => ?_, fun e he => ?_,
    fun u pid q a e he => SalesOrder.addItem_fail_frame o u pid q a e he⟩
  · by_cases h : o.state = .pending
    · simp [SalesOrder.confirm, h] at he
    · simp [SalesOrder.confirm, h]
  · by_cases h : o.state = .confirmed
    · simp [SalesOrder.ship, h] at he
    · simp [SalesOrder.ship, h]
  · by_cases h : o.state = .pending ∨ o.state = .confirmed
    · simp [SalesOrder.cancel, h] at he
    · simp [SalesOrder.cancel, h]

/-- Witness for C9: a failed confirm on a shipped order and a failed
addItem (zero quantity) on a pending order both leave the order
unchanged. -/
theorem ops_atomic_on_failure_witness :
    (orderShipped.confirm).2 = orderShipped ∧
    (orderPending.addItem "i1" (some ⟨"p1"⟩) 0 10).2 = orderPending :=
  ⟨(ops_atomic_on_failure orderShipped).1
      (.invalidStateTransition "confirm" .shipped) rfl,
   (ops_atomic_on_failure orderPending).2.2.2 "i1" (some ⟨"p1"⟩) 0 10
      .invalidQuantity rfl⟩
